import Mathlib

/-!
Verification development for the transient solar battery simulation core
(src/lib.rs).

Modelling conventions:
* `f32` values are modelled as real numbers.
* The only NaN source in the core is `daylight_hours` (an out-of-domain
  `acos` argument, including the ±∞/NaN arguments produced by a zero
  denominator); a NaN daylight-hours value is modelled as `Option.none`.
  Every consumer of that value pushes it through a saturating `as u32`
  cast (NaN casts to 0), which is modelled explicitly, so no other value
  in the model needs NaN tracking.
* Rust panics (`.unwrap()` on `NaiveTime`/`NaiveDate` construction) are
  modelled by `Option`-valued functions returning `none`.
* `NaiveDateTime` is modelled as whole seconds since 2023-01-01T00:00:00
  (every time the program constructs is a whole number of seconds),
  `NaiveDate` as a whole day count with the same origin, and `Duration`
  as whole seconds. chrono's calendar queries (`ordinal0`) are modelled
  by the standard civil-calendar conversion algorithms.
-/

namespace Solar

open scoped Real
open scoped Classical

/-- Days since 1970-01-01 of a civil date (year, month, day-of-month); the
standard `days_from_civil` calendar algorithm, matching chrono's proleptic
Gregorian calendar. -/
def daysFromCivil (y : ℤ) (m d : ℕ) : ℤ :=
  let y' : ℤ := if m ≤ 2 then y - 1 else y
  let era : ℤ := y'.fdiv 400
  let yoe : ℕ := (y' - 400 * era).toNat
  let doy : ℕ := (153 * (if 2 < m then m - 3 else m + 9) + 2) / 5 + d - 1
  let doe : ℕ := yoe * 365 + yoe / 4 - yoe / 100 + doy
  era * 146097 + (doe : ℤ) - 719468

/-- Year of the civil date lying `dayNum` days after 2023-01-01; the standard
`civil_from_days` inverse calendar algorithm (2023-01-01 is day 19358 of the
1970 epoch). -/
def civilYear (dayNum : ℤ) : ℤ :=
  let z : ℤ := dayNum + 19358 + 719468
  let era : ℤ := z.fdiv 146097
  let doe : ℕ := (z - 146097 * era).toNat
  let yoe : ℕ := (doe - doe / 1460 + doe / 36524 - doe / 146096) / 365
  let doyMar : ℕ := doe - (365 * yoe + yoe / 4 - yoe / 100)
  let mp : ℕ := (5 * doyMar + 2) / 153
  let m : ℕ := if mp < 10 then mp + 3 else mp - 9
  era * 400 + (yoe : ℤ) + (if m ≤ 2 then 1 else 0)

/-- Model of chrono's `Datelike::ordinal0`: the 0-based day of the year of the
date lying `dayNum` days after 2023-01-01. -/
def ordinal0OfDay (dayNum : ℤ) : ℕ :=
  ((dayNum + 19358) - daysFromCivil (civilYear dayNum) 1 1).toNat

/-- Day count of the calendar date containing a timestamp (`.date()`). -/
def dateOf (t : ℤ) : ℤ := t.fdiv 86400

/-- Model of `now.ordinal0()` for a timestamp. -/
def ordinal0DT (t : ℤ) : ℕ := ordinal0OfDay (dateOf t)

/-- Midnight of a timestamp's calendar date, as a timestamp; this is the
`NaiveDate::from_ymd_opt(start.year(), start.month(), start.day())` date
rebuilt in `bounded_daylight_duration`. -/
def midnightOf (t : ℤ) : ℤ := 86400 * dateOf t

/-- Model of `NaiveDateTime::time()` as whole seconds since midnight. -/
def timeOfDaySec (t : ℤ) : ℕ := (t - midnightOf t).toNat

/-- Model of Rust's saturating `f32 as u32` cast applied to a possibly-NaN
(`none`) value: NaN casts to 0, negative values clamp to 0, values at or
above 2^32 clamp to `u32::MAX`, and everything else truncates. -/
noncomputable def castU32 : Option ℝ → ℕ
  | none => 0
  | some x => if x < 0 then 0 else if 4294967296 ≤ x then 4294967295 else ⌊x⌋.toNat

/-- Model of chrono's `NaiveTime::from_num_seconds_from_midnight_opt` with a
zero nanosecond argument: defined exactly below 86400 seconds. -/
def naiveTimeOfSecs (s : ℕ) : Option ℕ := if s < 86400 then some s else none

/-- The simulation state (`SimState` in src/lib.rs). `f32` fields are reals;
`NaiveDateTime` fields are seconds since 2023-01-01T00:00:00; `Duration` is
seconds. Entries of `daylight_history` are possibly-NaN daylight-hours
samples. -/
structure SimState where
  load : ℝ
  battery_capacity : ℝ
  current_stored_energy : ℝ
  solar_nominal_output : ℝ
  charge_history : List ℝ
  latitude : ℝ
  history_dates : List ℤ
  now : ℤ
  step_size : ℤ
  start_day : ℕ
  end_day : ℕ
  solar_history : List ℝ
  daylight_history : List (Option ℝ)

/-- Model of `SimState::new()`: zeroed parameters, empty histories, the clock
at 2023-01-01T00:00:00, a 45-minute step, days 1 to 364. -/
def SimState.new : SimState where
  load := 0
  battery_capacity := 0
  current_stored_energy := 0
  solar_nominal_output := 0
  charge_history := []
  latitude := 0
  history_dates := []
  now := 0
  step_size := 45 * 60
  start_day := 1
  end_day := 364
  solar_history := []
  daylight_history := []

/-- The declination-related angle `p` computed in `daylight_hours`. -/
noncomputable def declinationP (day : ℕ) : ℝ :=
  Real.arcsin (0.39795 *
    Real.cos (0.2163108 + 2 * Real.arctan (0.9671396 * Real.tan (0.0086 * (day : ℝ)))))

/-- Numerator of the `acos` argument in `daylight_hours`
(`to_radians` multiplies by π/180). -/
noncomputable def daylightNum (lat : ℝ) (day : ℕ) : ℝ :=
  Real.sin (0.8333 * π / 180) + Real.sin (lat * π / 180) * Real.sin (declinationP day)

/-- Denominator of the `acos` argument in `daylight_hours`. -/
noncomputable def daylightDen (lat : ℝ) (day : ℕ) : ℝ :=
  Real.cos (lat * π / 180) * Real.cos (declinationP day)

/-- The argument passed to `acos` in `daylight_hours`. -/
noncomputable def daylightArg (lat : ℝ) (day : ℕ) : ℝ :=
  daylightNum lat day / daylightDen lat day

/-- Model of `daylight_hours(lat, day)`. `none` models the NaN produced when
the `acos` argument falls outside [-1, 1]; a zero denominator produces a
±∞/NaN argument in `f32`, also outside the domain, hence also `none`. -/
noncomputable def daylight_hours (lat : ℝ) (day : ℕ) : Option ℝ :=
  if daylightDen lat day ≠ 0 ∧ |daylightArg lat day| ≤ 1 then
    some (24 / π * Real.arccos (daylightArg lat day))
  else none

/-- Model of `later_of` from src/lib.rs. -/
def later_of (a b : ℤ) : ℤ := if a > b then a else b

/-- Model of `earlier_of` from src/lib.rs. -/
def earlier_of (a b : ℤ) : ℤ := if a < b then a else b

/-- Model of `bounded_daylight_duration(start, end, daylight_hours)`: the
overlap of `[start, end]` with the daylight window of `start`'s calendar
date, in seconds. `none` models the `.unwrap()` panic when a constructed
`NaiveTime` reaches 86400 seconds. -/
noncomputable def bounded_daylight_duration (start end_ : ℤ) (h : Option ℝ) : Option ℤ :=
  match naiveTimeOfSecs (castU32 (h.map fun v => (12 - v / 2) * 60 * 60)),
        naiveTimeOfSecs (castU32 (h.map fun v => (12 + v / 2) * 60 * 60)) with
  | some r, some s =>
      let sunriseT := midnightOf start + (r : ℤ)
      let sunsetT := midnightOf start + (s : ℤ)
      some (if end_ < sunriseT ∨ start > sunsetT then 0
            else earlier_of end_ sunsetT - later_of start sunriseT)
  | _, _ => none

/-- Model of `bounded_daylight_hours`: the bounded duration converted to
fractional hours. -/
noncomputable def bounded_daylight_hours (start end_ : ℤ) (h : Option ℝ) : Option ℝ :=
  (bounded_daylight_duration start end_ h).map fun dur : ℤ => (dur : ℝ) / (60 * 60)

/-- Model of `sunrise(date, lat)` as seconds since midnight; `none` models
the `.unwrap()` panic on an invalid constructed time. -/
noncomputable def sunrise (date : ℤ) (lat : ℝ) : Option ℕ :=
  naiveTimeOfSecs
    (43200 - castU32 ((daylight_hours lat (ordinal0OfDay date)).map fun v => v / 2 * 60 * 60))

/-- Model of `sunset(date, lat)`. -/
noncomputable def sunset (date : ℤ) (lat : ℝ) : Option ℕ :=
  naiveTimeOfSecs
    (43200 + castU32 ((daylight_hours lat (ordinal0OfDay date)).map fun v => v / 2 * 60 * 60))

/-- Model of `time_hours(time)`: hour + minute/60 + second/3600 for a time of
day given in whole seconds. -/
noncomputable def time_hours (t : ℕ) : ℝ :=
  ((t / 3600 : ℕ) : ℝ) + ((t / 60 % 60 : ℕ) : ℝ) / 60 + ((t % 60 : ℕ) : ℝ) / (60 * 60)

/-- Model of `solar_production_curve(now, lat)`, the normalized instantaneous
solar output coefficient. In the in-window branch the daylight hours are
necessarily `some` (a NaN daylight value forces sunrise = sunset = noon, so
the out-of-window branch is taken); the 0 in the `none` arm is dead code. -/
noncomputable def solar_production_curve (now : ℤ) (lat : ℝ) : Option ℝ :=
  match sunrise (dateOf now) lat, sunset (dateOf now) lat with
  | some rise, some setT =>
      some (if timeOfDaySec now ≤ rise ∨ timeOfDaySec now ≥ setT then 0
            else match daylight_hours lat (ordinal0DT now) with
                 | some lightHours =>
                     0.5 * Real.cos (2 * π / lightHours * (time_hours (timeOfDaySec now) - 12)) + 0.5
                 | none => 0)
  | _, _ => none

/-- Model of `solar_power(state)`: nominal output times the average of the
production coefficients at the start and the end of the current step. -/
noncomputable def solar_power (s : SimState) : Option ℝ := do
  let startCoeff ← solar_production_curve s.now s.latitude
  let endCoeff ← solar_production_curve (s.now + s.step_size) s.latitude
  pure (s.solar_nominal_output * ((startCoeff + endCoeff) / 2))

/-- Model of chrono's `Duration::num_minutes`: whole minutes, truncated
toward zero. -/
def numMinutes (d : ℤ) : ℤ := d.tdiv 60

/-- Model of `net_energy(state)`: solar energy gained minus load energy spent
over one step, in Wh. -/
noncomputable def net_energy (s : SimState) : Option ℝ := do
  let sp ← solar_power s
  let bdh ← bounded_daylight_hours s.now (s.now + s.step_size)
              (daylight_hours s.latitude (ordinal0DT s.now))
  pure (sp * bdh - s.load * (numMinutes s.step_size : ℝ) / 60)

/-- Model of `step(state)`: one simulation step. -/
noncomputable def step (s : SimState) : Option SimState := do
  let delta ← net_energy s
  let sp ← solar_power s
  pure { s with
    charge_history := s.charge_history ++ [s.current_stored_energy]
    current_stored_energy :=
      if s.current_stored_energy + delta < 0 then 0
      else if s.current_stored_energy + delta > s.battery_capacity then s.battery_capacity
      else s.current_stored_energy + delta
    now := s.now + s.step_size
    history_dates := s.history_dates ++ [s.now]
    solar_history := s.solar_history ++ [sp]
    daylight_history := s.daylight_history ++ [daylight_hours s.latitude (ordinal0DT s.now)] }

/-- Iterated `step` (`none` as soon as any step panics). -/
noncomputable def stepN : ℕ → SimState → Option SimState
  | 0, s => some s
  | n + 1, s => (stepN n s).bind step

/-- Building the timestamp for a given day of year in the fixed reference
year 2023 (`from_ymd_opt(2023, ..).with_ordinal(d).and_hms_opt(0, 0, 0)`):
defined for ordinals 1..=365, since 2023 is not a leap year; `none` models
the `.unwrap()` panic on `with_ordinal`. -/
def withOrdinal2023 (d : ℕ) : Option ℤ :=
  if 1 ≤ d ∧ d ≤ 365 then some (86400 * ((d : ℤ) - 1)) else none

/-- Any successful `step` advances the clock by exactly `step_size` and
leaves the run parameters unchanged. -/
theorem step_fields {s s' : SimState} (hst : step s = some s') :
    s'.now = s.now + s.step_size ∧ s'.step_size = s.step_size ∧
      s'.latitude = s.latitude ∧ s'.battery_capacity = s.battery_capacity := by
  cases hne : net_energy s with
  | none => simp [step, hne] at hst
  | some delta =>
    cases hsp : solar_power s with
    | none => simp [step, hne, hsp] at hst
    | some sp =>
      simp only [step, hne, hsp, Option.bind_eq_bind, Option.some_bind, Option.pure_def,
        Option.some_inj] at hst
      subst hst
      exact ⟨rfl, rfl, rfl, rfl⟩

/-- The `while state.now < end { state = step(&state) }` loop of
`run_simulation`. With a non-positive `step_size` the Rust loop never makes
progress and diverges; that case is modelled as `none`, like a panic. -/
noncomputable def runLoop (endB : ℤ) (s : SimState) : Option SimState :=
  if endB ≤ s.now then some s
  else if 0 < s.step_size then
    match hst : step s with
    | none => none
    | some s2 => runLoop endB s2
  else none
termination_by (endB - s.now).toNat
decreasing_by
  have h := (step_fields hst).1
  rename_i hlt hpos
  rw [h]
  omega

/-- Model of `run_simulation(state)`: reset the clock and the histories, then
run the loop up to midnight of the end day. -/
noncomputable def run_simulation (s : SimState) : Option SimState := do
  let startNow ← withOrdinal2023 (if s.start_day = 0 then 1 else s.start_day)
  let endB ← withOrdinal2023 (if s.end_day = 0 then 1 else s.end_day)
  runLoop endB { s with
    now := startNow
    current_stored_energy := 0
    charge_history := []
    history_dates := []
    solar_history := []
    daylight_history := [] }

/-- The clamp described by the spec: floor at `lo`, then cap at `hi`. -/
noncomputable def clamp (x lo hi : ℝ) : ℝ :=
  if x < lo then lo else if x > hi then hi else x

/-- Elimination form of `daylight_hours` returning a value. -/
theorem daylight_hours_some_elim {lat : ℝ} {day : ℕ} {v : ℝ}
    (h : daylight_hours lat day = some v) :
    daylightDen lat day ≠ 0 ∧ |daylightArg lat day| ≤ 1 ∧
      v = 24 / π * Real.arccos (daylightArg lat day) := by
  by_cases hc : daylightDen lat day ≠ 0 ∧ |daylightArg lat day| ≤ 1
  · refine ⟨hc.1, hc.2, ?_⟩
    rw [daylight_hours, if_pos hc] at h
    exact (Option.some_inj.mp h).symm
  · rw [daylight_hours, if_neg hc] at h
    cases h

/-- When `daylight_hours` returns a value it lies in [0, 24]. -/
theorem daylight_hours_bounds {lat : ℝ} {day : ℕ} {v : ℝ}
    (h : daylight_hours lat day = some v) : 0 ≤ v ∧ v ≤ 24 := by
  obtain ⟨-, -, hv⟩ := daylight_hours_some_elim h
  have hpi : (0 : ℝ) < π := Real.pi_pos
  constructor
  · rw [hv]
    exact mul_nonneg (by positivity) (Real.arccos_nonneg _)
  · rw [hv]
    calc 24 / π * Real.arccos (daylightArg lat day) ≤ 24 / π * π := by
          exact mul_le_mul_of_nonneg_left (Real.arccos_le_pi _) (by positivity)
      _ = 24 := by field_simp

/-- When the `acos` argument is strictly above -1, the daylight hours are
strictly below 24. -/
theorem daylight_hours_lt_24 {lat : ℝ} {day : ℕ} {v : ℝ}
    (h : daylight_hours lat day = some v) (harg : -1 < daylightArg lat day) :
    v < 24 := by
  obtain ⟨-, habs, hv⟩ := daylight_hours_some_elim h
  have hpi : (0 : ℝ) < π := Real.pi_pos
  have harc : Real.arccos (daylightArg lat day) < π := by
    rw [Real.arccos_eq_pi_div_two_sub_arcsin]
    have : -(π / 2) < Real.arcsin (daylightArg lat day) := by
      have := Real.strictMonoOn_arcsin (a := -1) (b := daylightArg lat day)
        (by constructor <;> norm_num) ⟨le_of_lt harg, (abs_le.mp habs).2⟩ harg
      rw [Real.arcsin_neg_one] at this
      exact this
    linarith
  rw [hv]
  calc 24 / π * Real.arccos (daylightArg lat day) < 24 / π * π :=
        mul_lt_mul_of_pos_left harc (by positivity)
    _ = 24 := by field_simp

/-- Absolute bound on the sine of the declination angle. -/
theorem abs_sin_declinationP_le (day : ℕ) : |Real.sin (declinationP day)| ≤ 0.39795 := by
  have hx : |0.39795 * Real.cos (0.2163108 +
      2 * Real.arctan (0.9671396 * Real.tan (0.0086 * (day : ℝ))))| ≤ 0.39795 := by
    rw [abs_mul]
    calc |(0.39795 : ℝ)| * |Real.cos _| ≤ |(0.39795 : ℝ)| * 1 :=
          mul_le_mul_of_nonneg_left (Real.abs_cos_le_one _) (abs_nonneg _)
      _ = 0.39795 := by norm_num
  have h1 : -1 ≤ 0.39795 * Real.cos (0.2163108 +
      2 * Real.arctan (0.9671396 * Real.tan (0.0086 * (day : ℝ)))) := by
    have := abs_le.mp hx
    linarith [this.1]
  have h2 : 0.39795 * Real.cos (0.2163108 +
      2 * Real.arctan (0.9671396 * Real.tan (0.0086 * (day : ℝ)))) ≤ 1 := by
    have := abs_le.mp hx
    linarith [this.2]
  rw [declinationP, Real.sin_arcsin h1 h2]
  exact hx

/-- Lower bound on the cosine of the declination angle. -/
theorem cos_declinationP_ge (day : ℕ) : (0.917 : ℝ) ≤ Real.cos (declinationP day) := by
  rw [declinationP, Real.cos_arcsin]
  set x : ℝ := 0.39795 * Real.cos (0.2163108 +
    2 * Real.arctan (0.9671396 * Real.tan (0.0086 * (day : ℝ)))) with hxdef
  have hx : |x| ≤ 0.39795 := by
    rw [hxdef, abs_mul]
    calc |(0.39795 : ℝ)| * |Real.cos _| ≤ |(0.39795 : ℝ)| * 1 :=
          mul_le_mul_of_nonneg_left (Real.abs_cos_le_one _) (abs_nonneg _)
      _ = 0.39795 := by norm_num
  have hx2 : x ^ 2 ≤ 0.39795 ^ 2 := by
    rw [← sq_abs]
    exact pow_le_pow_left₀ (abs_nonneg _) hx 2
  have : (0.917 : ℝ) ^ 2 ≤ 1 - x ^ 2 := by nlinarith
  exact (Real.le_sqrt (by norm_num) (by nlinarith)).mpr this

/-- Positivity of the cosine of the declination angle. -/
theorem cos_declinationP_pos (day : ℕ) : 0 < Real.cos (declinationP day) :=
  lt_of_lt_of_le (by norm_num) (cos_declinationP_ge day)

/-- The time of day is always below 86400 seconds. -/
theorem timeOfDaySec_lt (t : ℤ) : timeOfDaySec t < 86400 := by
  rw [timeOfDaySec, midnightOf, dateOf]
  have h86 : (0 : ℤ) ≤ 86400 := by norm_num
  rw [Int.fdiv_eq_ediv _ h86]
  have := Int.emod_lt_of_pos t (b := 86400) (by norm_num)
  have hmod : t - 86400 * (t / 86400) = t % 86400 := by
    rw [Int.emod_def]
  omega

/-- Midnight of a timestamp's date is never after the timestamp. -/
theorem midnightOf_le (t : ℤ) : midnightOf t ≤ t := by
  rw [midnightOf, dateOf]
  have h86 : (0 : ℤ) ≤ 86400 := by norm_num
  rw [Int.fdiv_eq_ediv _ h86]
  have := Int.emod_nonneg t (b := 86400) (by norm_num)
  have hmod : t - 86400 * (t / 86400) = t % 86400 := by
    rw [Int.emod_def]
  omega

/-- Evaluation of the saturating cast in its ordinary range. -/
theorem castU32_some_eq {x : ℝ} (h0 : 0 ≤ x) (h32 : x < 4294967296) :
    castU32 (some x) = ⌊x⌋.toNat := by
  rw [castU32]
  rw [if_neg (by linarith), if_neg (by linarith)]

/-- The cast of a daylight half-window stays below noon when the daylight
hours are below 24. -/
theorem castU32_half_lt {v : ℝ} (h0 : 0 ≤ v) (h24 : v < 24) :
    castU32 (some (v / 2 * 60 * 60)) < 43200 := by
  have hlt : v / 2 * 60 * 60 < 43200 := by linarith
  rw [castU32_some_eq (by positivity) (by linarith)]
  have : ⌊v / 2 * 60 * 60⌋ < 43200 := Int.floor_lt.mpr (by exact_mod_cast hlt)
  omega

/-- The cast of a daylight half-window is at most noon when the daylight
hours are at most 24. -/
theorem castU32_half_le {v : ℝ} (h0 : 0 ≤ v) (h24 : v ≤ 24) :
    castU32 (some (v / 2 * 60 * 60)) ≤ 43200 := by
  have hle : v / 2 * 60 * 60 ≤ 43200 := by linarith
  rw [castU32_some_eq (by positivity) (by linarith)]
  have h : ⌊v / 2 * 60 * 60⌋ ≤ ⌊(43200 : ℝ)⌋ := Int.floor_le_floor hle
  rw [show ⌊(43200 : ℝ)⌋ = 43200 by norm_num] at h
  omega

/-- Daylight hours at a latitude/day are harmless for the time constructions:
either NaN, or a value strictly below 24 hours. -/
def daylightOk (lat : ℝ) (day : ℕ) : Prop :=
  daylight_hours lat day = none ∨ ∃ v, daylight_hours lat day = some v ∧ v < 24

/-- The half-window cast stays below noon for harmless daylight values. -/
theorem cast_half_lt_of_ok {lat : ℝ} {day : ℕ} (h : daylightOk lat day) :
    castU32 ((daylight_hours lat day).map fun v => v / 2 * 60 * 60) < 43200 := by
  rcases h with h | ⟨v, hv, h24⟩
  · rw [h]
    simp [castU32]
  · rw [hv, Option.map_some']
    exact castU32_half_lt (daylight_hours_bounds hv).1 h24

/-- The sunrise construction always succeeds, with its value below noon. -/
theorem sunrise_eq (date : ℤ) (lat : ℝ) :
    sunrise date lat = some (43200 -
      castU32 ((daylight_hours lat (ordinal0OfDay date)).map fun v => v / 2 * 60 * 60)) := by
  rw [sunrise, naiveTimeOfSecs, if_pos]
  omega

/-- The sunset construction succeeds whenever the half-window cast is below
noon. -/
theorem sunset_eq_of_lt {date : ℤ} {lat : ℝ}
    (h : castU32 ((daylight_hours lat (ordinal0OfDay date)).map fun v => v / 2 * 60 * 60) < 43200) :
    sunset date lat = some (43200 +
      castU32 ((daylight_hours lat (ordinal0OfDay date)).map fun v => v / 2 * 60 * 60)) := by
  rw [sunset, naiveTimeOfSecs, if_pos]
  omega

/-- Evaluation of `solar_production_curve` once sunrise and sunset exist. -/
theorem spc_eq_of_somes {now : ℤ} {lat : ℝ} {r s' : ℕ}
    (hr : sunrise (dateOf now) lat = some r) (hs : sunset (dateOf now) lat = some s') :
    solar_production_curve now lat =
      some (if timeOfDaySec now ≤ r ∨ timeOfDaySec now ≥ s' then 0
            else match daylight_hours lat (ordinal0DT now) with
                 | some lightHours =>
                     0.5 * Real.cos (2 * π / lightHours * (time_hours (timeOfDaySec now) - 12)) + 0.5
                 | none => 0) := by
  rw [solar_production_curve, hr, hs]

/-- The curve `solar_production_curve` succeeds with a value in [0, 1] whenever the
daylight hours of the day are harmless. -/
theorem spc_some_of_ok {now : ℤ} {lat : ℝ} (h : daylightOk lat (ordinal0DT now)) :
    ∃ c, solar_production_curve now lat = some c ∧ 0 ≤ c ∧ c ≤ 1 := by
  have hlt : castU32 ((daylight_hours lat (ordinal0OfDay (dateOf now))).map
      fun v => v / 2 * 60 * 60) < 43200 := cast_half_lt_of_ok h
  refine ⟨_, spc_eq_of_somes (sunrise_eq (dateOf now) lat) (sunset_eq_of_lt hlt), ?_, ?_⟩
  · split
    · exact le_refl 0
    · cases hd : daylight_hours lat (ordinal0DT now) with
      | none => exact le_refl 0
      | some lightHours =>
        have := Real.neg_one_le_cos (2 * π / lightHours * (time_hours (timeOfDaySec now) - 12))
        show (0 : ℝ) ≤ 0.5 * Real.cos (2 * π / lightHours *
          (time_hours (timeOfDaySec now) - 12)) + 0.5
        linarith
  · split
    · norm_num
    · cases hd : daylight_hours lat (ordinal0DT now) with
      | none => norm_num
      | some lightHours =>
        have := Real.cos_le_one (2 * π / lightHours * (time_hours (timeOfDaySec now) - 12))
        show 0.5 * Real.cos (2 * π / lightHours *
          (time_hours (timeOfDaySec now) - 12)) + 0.5 ≤ 1
        linarith

/-- Evaluation of `bounded_daylight_duration` once both times exist. -/
theorem bdd_eq_of_somes {start end_ : ℤ} {h : Option ℝ} {r s' : ℕ}
    (hr : naiveTimeOfSecs (castU32 (h.map fun v => (12 - v / 2) * 60 * 60)) = some r)
    (hs : naiveTimeOfSecs (castU32 (h.map fun v => (12 + v / 2) * 60 * 60)) = some s') :
    bounded_daylight_duration start end_ h =
      some (if end_ < midnightOf start + (r : ℤ) ∨ start > midnightOf start + (s' : ℤ) then 0
            else earlier_of end_ (midnightOf start + (s' : ℤ)) -
              later_of start (midnightOf start + (r : ℤ))) := by
  rw [bounded_daylight_duration, hr, hs]

/-- A NaN daylight value collapses the daylight window to a point, so the
bounded daylight duration is zero (the casts launder the NaN). -/
theorem bdd_none_daylight (start end_ : ℤ) :
    bounded_daylight_duration start end_ none = some 0 := by
  have hr : naiveTimeOfSecs (castU32 ((none : Option ℝ).map fun v => (12 - v / 2) * 60 * 60)) =
      some 0 := by
    simp [castU32, naiveTimeOfSecs]
  have hs : naiveTimeOfSecs (castU32 ((none : Option ℝ).map fun v => (12 + v / 2) * 60 * 60)) =
      some 0 := by
    simp [castU32, naiveTimeOfSecs]
  rw [bdd_eq_of_somes hr hs]
  have hmid := midnightOf_le start
  simp only [Nat.cast_zero, add_zero]
  by_cases h1 : end_ < midnightOf start
  · rw [if_pos (Or.inl h1)]
  · by_cases h2 : start > midnightOf start
    · rw [if_pos (Or.inr h2)]
    · rw [if_neg (by tauto), earlier_of, later_of, if_neg h1, if_neg h2]
      congr 1
      omega

/-- The casts feeding `bounded_daylight_duration` succeed for harmless
daylight values. -/
theorem bdd_some_of_ok {lat : ℝ} {day : ℕ} (h : daylightOk lat day) (start end_ : ℤ) :
    ∃ d, bounded_daylight_duration start end_ (daylight_hours lat day) = some d := by
  rcases h with hnone | ⟨v, hv, h24⟩
  · rw [hnone]
    exact ⟨0, bdd_none_daylight start end_⟩
  · have h0 := (daylight_hours_bounds hv).1
    have hle24 := (daylight_hours_bounds hv).2
    have hr : naiveTimeOfSecs (castU32 (((daylight_hours lat day)).map
        fun w => (12 - w / 2) * 60 * 60)) = some (castU32 (some ((12 - v / 2) * 60 * 60))) := by
      rw [hv, Option.map_some', naiveTimeOfSecs, if_pos]
      rw [castU32_some_eq (by nlinarith) (by nlinarith)]
      have hfl : ⌊(12 - v / 2) * 60 * 60⌋ ≤ ⌊(43200 : ℝ)⌋ := Int.floor_le_floor (by nlinarith)
      rw [show ⌊(43200 : ℝ)⌋ = 43200 by norm_num] at hfl
      omega
    have hs : naiveTimeOfSecs (castU32 (((daylight_hours lat day)).map
        fun w => (12 + w / 2) * 60 * 60)) = some (castU32 (some ((12 + v / 2) * 60 * 60))) := by
      rw [hv, Option.map_some', naiveTimeOfSecs, if_pos]
      rw [castU32_some_eq (by nlinarith) (by nlinarith)]
      have hfl : ⌊(12 + v / 2) * 60 * 60⌋ < (86400 : ℤ) := Int.floor_lt.mpr (by push_cast; nlinarith)
      omega
    exact ⟨_, bdd_eq_of_somes hr hs⟩

/-- The conversion `bounded_daylight_hours` succeeds for harmless daylight values. -/
theorem bdh_some_of_ok {lat : ℝ} {day : ℕ} (h : daylightOk lat day) (start end_ : ℤ) :
    ∃ b, bounded_daylight_hours start end_ (daylight_hours lat day) = some b := by
  obtain ⟨d, hd⟩ := bdd_some_of_ok h start end_
  exact ⟨(d : ℝ) / (60 * 60), by rw [bounded_daylight_hours, hd]; rfl⟩

/-- The power `solar_power` succeeds when both step endpoints have harmless daylight. -/
theorem solar_power_some_of_ok {s : SimState}
    (h1 : daylightOk s.latitude (ordinal0DT s.now))
    (h2 : daylightOk s.latitude (ordinal0DT (s.now + s.step_size))) :
    ∃ p, solar_power s = some p := by
  obtain ⟨c1, hc1, -, -⟩ := spc_some_of_ok h1
  obtain ⟨c2, hc2, -, -⟩ := spc_some_of_ok h2
  exact ⟨_, by rw [solar_power, hc1, hc2]; rfl⟩

/-- The balance `net_energy` succeeds when both step endpoints have harmless daylight. -/
theorem net_energy_some_of_ok {s : SimState}
    (h1 : daylightOk s.latitude (ordinal0DT s.now))
    (h2 : daylightOk s.latitude (ordinal0DT (s.now + s.step_size))) :
    ∃ d, net_energy s = some d := by
  obtain ⟨p, hp⟩ := solar_power_some_of_ok h1 h2
  obtain ⟨b, hb⟩ := bdh_some_of_ok h1 s.now (s.now + s.step_size)
  exact ⟨_, by rw [net_energy, hp, hb]; rfl⟩

/-- Evaluation of `net_energy` from its two ingredients. -/
theorem net_energy_eq {s : SimState} {p b : ℝ} (hp : solar_power s = some p)
    (hb : bounded_daylight_hours s.now (s.now + s.step_size)
        (daylight_hours s.latitude (ordinal0DT s.now)) = some b) :
    net_energy s = some (p * b - s.load * (numMinutes s.step_size : ℝ) / 60) := by
  rw [net_energy, hp, hb]
  rfl

/-- Evaluation of `step` from its two ingredients. -/
theorem step_eq {s : SimState} {delta p : ℝ} (hd : net_energy s = some delta)
    (hp : solar_power s = some p) :
    step s = some { s with
      charge_history := s.charge_history ++ [s.current_stored_energy]
      current_stored_energy :=
        if s.current_stored_energy + delta < 0 then 0
        else if s.current_stored_energy + delta > s.battery_capacity then s.battery_capacity
        else s.current_stored_energy + delta
      now := s.now + s.step_size
      history_dates := s.history_dates ++ [s.now]
      solar_history := s.solar_history ++ [p]
      daylight_history := s.daylight_history ++
        [daylight_hours s.latitude (ordinal0DT s.now)] } := by
  rw [step, hd, hp]
  rfl

/-- The transition `step` succeeds when both step endpoints have harmless daylight. -/
theorem step_some_of_ok {s : SimState}
    (h1 : daylightOk s.latitude (ordinal0DT s.now))
    (h2 : daylightOk s.latitude (ordinal0DT (s.now + s.step_size))) :
    ∃ s2, step s = some s2 := by
  obtain ⟨delta, hd⟩ := net_energy_some_of_ok h1 h2
  obtain ⟨p, hp⟩ := solar_power_some_of_ok h1 h2
  exact ⟨_, step_eq hd hp⟩

/-- Positivity of the atmospheric-refraction term sin(0.8333°). -/
theorem sin_refraction_pos : 0 < Real.sin (0.8333 * π / 180) := by
  have hpi := Real.pi_pos
  apply Real.sin_pos_of_pos_of_lt_pi
  · positivity
  · nlinarith

/-- Upper numeric bound on sin(0.8333°). -/
theorem sin_refraction_lt : Real.sin (0.8333 * π / 180) < 0.0146 := by
  have hlt : Real.pi < 3.141593 := Real.pi_lt_d6
  have hpos : (0 : ℝ) < 0.8333 * π / 180 := by
    have := Real.pi_pos
    positivity
  calc Real.sin (0.8333 * π / 180) < 0.8333 * π / 180 := Real.sin_lt hpos
    _ < 0.0146 := by nlinarith

/-- Quadratic lower bound for the cosine on [0, π]. -/
theorem cos_ge_one_sub_sq_half {x : ℝ} (h0 : 0 ≤ x) (hpi : x ≤ π) :
    1 - x ^ 2 / 2 ≤ Real.cos x := by
  have hid : Real.cos x = 1 - 2 * Real.sin (x / 2) ^ 2 := by
    have h2 := Real.cos_two_mul' (x / 2)
    have hs := Real.sin_sq_add_cos_sq (x / 2)
    have : Real.cos (2 * (x / 2)) = Real.cos (x / 2) ^ 2 - Real.sin (x / 2) ^ 2 := h2
    rw [show 2 * (x / 2) = x by ring] at this
    nlinarith
  have hs0 : 0 ≤ Real.sin (x / 2) := by
    apply Real.sin_nonneg_of_nonneg_of_le_pi
    · linarith
    · have := Real.pi_pos
      linarith
  have hsle : Real.sin (x / 2) ≤ x / 2 := by
    rcases eq_or_lt_of_le (show (0 : ℝ) ≤ x / 2 by linarith) with h | h
    · rw [← h, Real.sin_zero]
    · exact le_of_lt (Real.sin_lt h)
  nlinarith

/-- The declination angle is within [-0.412, 0.412] radians. -/
theorem abs_declinationP_le (day : ℕ) : |declinationP day| ≤ 0.412 := by
  have hpi2 : (0.412 : ℝ) ≤ π / 2 := by
    have := Real.pi_gt_d6
    linarith
  have hsin412 : (0.39795 : ℝ) ≤ Real.sin 0.412 := by
    have hsb := Real.sin_bound (x := 0.412) (by rw [abs_of_nonneg] <;> norm_num)
    have h1 := (abs_le.mp hsb).1
    rw [abs_of_nonneg (by norm_num : (0 : ℝ) ≤ 0.412)] at h1
    norm_num at h1 ⊢
    linarith
  set x : ℝ := 0.39795 * Real.cos (0.2163108 +
    2 * Real.arctan (0.9671396 * Real.tan (0.0086 * (day : ℝ)))) with hxdef
  have hx : |x| ≤ 0.39795 := by
    rw [hxdef, abs_mul]
    calc |(0.39795 : ℝ)| * |Real.cos _| ≤ |(0.39795 : ℝ)| * 1 :=
          mul_le_mul_of_nonneg_left (Real.abs_cos_le_one _) (abs_nonneg _)
      _ = 0.39795 := by norm_num
  have hmem : x ∈ Set.Icc (-1 : ℝ) 1 := by
    have := abs_le.mp hx
    constructor <;> [linarith; linarith]
  have hymem : (0.412 : ℝ) ∈ Set.Icc (-(π / 2)) (π / 2) := by
    constructor <;> [linarith; linarith]
  rw [abs_le]
  constructor
  · have hneg : Real.arcsin (-x) ≤ 0.412 := by
      have hmemneg : -x ∈ Set.Icc (-1 : ℝ) 1 := by
        have := abs_le.mp hx
        constructor <;> [linarith; linarith]
      refine (Real.arcsin_le_iff_le_sin hmemneg hymem).mpr ?_
      have := abs_le.mp hx
      linarith
    rw [declinationP, ← hxdef]
    rw [Real.arcsin_neg] at hneg
    linarith
  · rw [declinationP, ← hxdef]
    refine (Real.arcsin_le_iff_le_sin hmem hymem).mpr ?_
    have := abs_le.mp hx
    linarith

/-- At latitudes within ±66°, the `acos` argument stays strictly above -1, so
the daylight hours (when defined) stay strictly below 24 and every time
construction in a step succeeds. -/
theorem daylightArg_gt_neg_one {lat : ℝ} (hlat : |lat| ≤ 66) (day : ℕ) :
    0 < daylightDen lat day ∧ -1 < daylightArg lat day := by
  have hpi := Real.pi_pos
  have hpigt : (3.141592 : ℝ) < π := Real.pi_gt_d6
  have habsL : |lat * π / 180| ≤ 66 * π / 180 := by
    rw [abs_div, abs_mul, abs_of_nonneg (le_of_lt hpi), abs_of_nonneg (by norm_num : (0:ℝ) ≤ 180)]
    have : |lat| * π ≤ 66 * π := mul_le_mul_of_nonneg_right hlat (le_of_lt hpi)
    exact div_le_div_of_nonneg_right this (by norm_num) |>.trans_eq (by ring) |>.trans_eq rfl
  have hP := abs_declinationP_le day
  have hLP : |lat * π / 180 - declinationP day| < π / 2 := by
    calc |lat * π / 180 - declinationP day| ≤ |lat * π / 180| + |declinationP day| :=
          abs_sub _ _
      _ ≤ 66 * π / 180 + 0.412 := add_le_add habsL hP
      _ < π / 2 := by nlinarith
  have hcosLP : 0 < Real.cos (lat * π / 180 - declinationP day) := by
    apply Real.cos_pos_of_mem_Ioo
    have := abs_lt.mp hLP
    exact ⟨this.1, this.2⟩
  have hcosL : 0 < Real.cos (lat * π / 180) := by
    apply Real.cos_pos_of_mem_Ioo
    have h1 : |lat * π / 180| < π / 2 := by
      calc |lat * π / 180| ≤ 66 * π / 180 := habsL
        _ < π / 2 := by nlinarith
    have := abs_lt.mp h1
    exact ⟨this.1, this.2⟩
  have hden : 0 < daylightDen lat day :=
    mul_pos hcosL (cos_declinationP_pos day)
  refine ⟨hden, ?_⟩
  have hsum : 0 < daylightNum lat day + daylightDen lat day := by
    have hcs : Real.cos (lat * π / 180 - declinationP day) =
        Real.cos (lat * π / 180) * Real.cos (declinationP day) +
          Real.sin (lat * π / 180) * Real.sin (declinationP day) := Real.cos_sub _ _
    have := sin_refraction_pos
    rw [daylightNum, daylightDen]
    nlinarith
  rw [daylightArg]
  rw [lt_div_iff hden]
  rw [daylightDen] at hsum ⊢
  nlinarith [cos_declinationP_pos day]

/-- Latitudes within ±66° give harmless daylight values on every day. -/
theorem daylightOk_of_lat66 {lat : ℝ} (hlat : |lat| ≤ 66) (day : ℕ) : daylightOk lat day := by
  obtain ⟨hden, harg⟩ := daylightArg_gt_neg_one hlat day
  by_cases hg : daylightDen lat day ≠ 0 ∧ |daylightArg lat day| ≤ 1
  · right
    have hsome : daylight_hours lat day = some (24 / π * Real.arccos (daylightArg lat day)) := by
      rw [daylight_hours, if_pos hg]
    exact ⟨_, hsome, daylight_hours_lt_24 hsome harg⟩
  · left
    rw [daylight_hours, if_neg hg]

/-- At the equator the `acos` argument is defined and is a small positive
number. -/
theorem daylightArg_equator (day : ℕ) :
    daylight_hours 0 day = some (24 / π * Real.arccos (daylightArg 0 day)) ∧
      0 < daylightArg 0 day ∧ daylightArg 0 day < 0.016 := by
  have hnum : daylightNum 0 day = Real.sin (0.8333 * π / 180) := by
    rw [daylightNum]
    simp
  have hden : daylightDen 0 day = Real.cos (declinationP day) := by
    rw [daylightDen]
    simp
  have hdenlb : (0.917 : ℝ) ≤ daylightDen 0 day := by
    rw [hden]
    exact cos_declinationP_ge day
  have hdenpos : 0 < daylightDen 0 day := lt_of_lt_of_le (by norm_num) hdenlb
  have hargpos : 0 < daylightArg 0 day := by
    rw [daylightArg, hnum]
    exact div_pos sin_refraction_pos hdenpos
  have harglt : daylightArg 0 day < 0.016 := by
    rw [daylightArg, hnum, div_lt_iff hdenpos]
    nlinarith [sin_refraction_lt]
  refine ⟨?_, hargpos, harglt⟩
  rw [daylight_hours, if_pos ⟨ne_of_gt hdenpos, abs_le.mpr ⟨by linarith, by linarith⟩⟩]

/-- Daylight hours at the equator are defined on every day and lie strictly
between 11.85 and 12 hours. -/
theorem daylight_equator (day : ℕ) :
    ∃ v, daylight_hours 0 day = some v ∧ 11.85 < v ∧ v < 12 := by
  obtain ⟨hsome, hpos, hlt⟩ := daylightArg_equator day
  have hpi := Real.pi_pos
  have hpigt : (3.141592 : ℝ) < π := Real.pi_gt_d6
  have hpilt : π < 3.141593 := Real.pi_lt_d6
  have harcsin_pos : 0 < Real.arcsin (daylightArg 0 day) := Real.arcsin_pos.mpr hpos
  have harcsin_lt : Real.arcsin (daylightArg 0 day) < π / 160 := by
    have hx0 : (0 : ℝ) < π / 160 := by positivity
    have hx1 : π / 160 ≤ 1 := by nlinarith
    have hsinlb : (0.016 : ℝ) < Real.sin (π / 160) := by
      have hsub := Real.sin_gt_sub_cube hx0 hx1
      have hle : π / 160 ≤ 0.02 := by nlinarith
      have hcube : (π / 160) ^ 3 ≤ (0.02 : ℝ) ^ 3 := pow_le_pow_left₀ (by positivity) hle 3
      nlinarith
    have harg1 : daylightArg 0 day < Real.sin (π / 160) := lt_trans hlt hsinlb
    have hmono := Real.strictMonoOn_arcsin
      (a := daylightArg 0 day) (b := Real.sin (π / 160))
      ⟨by linarith, by linarith⟩
      ⟨Real.neg_one_le_sin _, Real.sin_le_one _⟩ harg1
    rw [Real.arcsin_sin (by linarith) (by nlinarith)] at hmono
    exact hmono
  refine ⟨_, hsome, ?_, ?_⟩
  · have hval : 24 / π * Real.arccos (daylightArg 0 day) =
        12 - 24 * Real.arcsin (daylightArg 0 day) / π := by
      rw [Real.arccos_eq_pi_div_two_sub_arcsin]
      field_simp
      ring
    rw [hval]
    have : 24 * Real.arcsin (daylightArg 0 day) / π < 0.15 := by
      rw [div_lt_iff hpi]
      nlinarith
    linarith
  · have hval : 24 / π * Real.arccos (daylightArg 0 day) =
        12 - 24 * Real.arcsin (daylightArg 0 day) / π := by
      rw [Real.arccos_eq_pi_div_two_sub_arcsin]
      field_simp
      ring
    rw [hval]
    have : 0 < 24 * Real.arcsin (daylightArg 0 day) / π := by positivity
    linarith

/-- Unfolding of the declination angle on day 0 (tan 0 = 0). -/
theorem declinationP_zero : declinationP 0 = Real.arcsin (0.39795 * Real.cos 0.2163108) := by
  rw [declinationP]
  norm_num

/-- The declination sine on day 0 is positive. -/
theorem sin_declinationP_zero_pos : 0 < Real.sin (declinationP 0) := by
  have hpigt : (3.141592 : ℝ) < π := Real.pi_gt_d6
  have hcos : 0 < Real.cos 0.2163108 := by
    apply Real.cos_pos_of_mem_Ioo
    constructor
    · nlinarith
    · nlinarith
  have habs : |0.39795 * Real.cos 0.2163108| ≤ 0.39795 := by
    rw [abs_mul]
    calc |(0.39795 : ℝ)| * |Real.cos 0.2163108| ≤ |(0.39795 : ℝ)| * 1 :=
          mul_le_mul_of_nonneg_left (Real.abs_cos_le_one _) (abs_nonneg _)
      _ = 0.39795 := by norm_num
  have h1 := (abs_le.mp habs).1
  have h2 := (abs_le.mp habs).2
  rw [declinationP_zero, Real.sin_arcsin (by linarith) (by linarith)]
  positivity

/-- Daylight hours at latitude 12°, day 0, are defined and at most 12. -/
theorem daylight_lat12 : ∃ v, daylight_hours 12 0 = some v ∧ 0 ≤ v ∧ v ≤ 12 := by
  have hpi := Real.pi_pos
  have hpigt : (3.141592 : ℝ) < π := Real.pi_gt_d6
  have hpilt : π < 3.141593 := Real.pi_lt_d6
  have hsinL : 0 < Real.sin (12 * π / 180) :=
    Real.sin_pos_of_pos_of_lt_pi (by positivity) (by nlinarith)
  have hsinLle : Real.sin (12 * π / 180) ≤ 1 := Real.sin_le_one _
  have hsinP := sin_declinationP_zero_pos
  have hsinPle : Real.sin (declinationP 0) ≤ 0.39795 :=
    le_trans (le_abs_self _) (abs_sin_declinationP_le 0)
  have hnumpos : 0 < daylightNum 12 0 := by
    rw [daylightNum]
    nlinarith [sin_refraction_pos]
  have hcosL : (0.978 : ℝ) ≤ Real.cos (12 * π / 180) := by
    have h1 : (0 : ℝ) ≤ 12 * π / 180 := by positivity
    have h2 : 12 * π / 180 ≤ π := by nlinarith
    have := cos_ge_one_sub_sq_half h1 h2
    nlinarith
  have hdenlb : (0.896 : ℝ) ≤ daylightDen 12 0 := by
    rw [daylightDen]
    nlinarith [cos_declinationP_ge 0, cos_declinationP_pos 0]
  have hdenpos : 0 < daylightDen 12 0 := by linarith
  have hnumub : daylightNum 12 0 ≤ 0.413 := by
    rw [daylightNum]
    nlinarith [sin_refraction_lt]
  have hargpos : 0 < daylightArg 12 0 := div_pos hnumpos hdenpos
  have hargle : daylightArg 12 0 ≤ 1 := by
    rw [daylightArg, div_le_one hdenpos]
    linarith
  refine ⟨_, by
    rw [daylight_hours,
      if_pos ⟨ne_of_gt hdenpos, abs_le.mpr ⟨by linarith, hargle⟩⟩], ?_, ?_⟩
  · exact mul_nonneg (by positivity) (Real.arccos_nonneg _)
  · have harccos : Real.arccos (daylightArg 12 0) < π / 2 :=
      Real.arccos_lt_pi_div_two.mpr hargpos
    calc 24 / π * Real.arccos (daylightArg 12 0) ≤ 24 / π * (π / 2) :=
          mul_le_mul_of_nonneg_left (le_of_lt harccos) (by positivity)
      _ = 12 := by
          field_simp
          norm_num

/-- At latitude 89.9°, day 0, the `acos` argument exceeds 1 (polar day). -/
theorem daylightArg_lat899_gt_one : 1 < daylightArg 89.9 0 := by
  have hpi := Real.pi_pos
  have hpigt : (3.141592 : ℝ) < π := Real.pi_gt_d6
  have hsinP := sin_declinationP_zero_pos
  have hcosPpos := cos_declinationP_pos 0
  have hcosPle := Real.cos_le_one (declinationP 0)
  have hsinL : 0 < Real.sin (89.9 * π / 180) :=
    Real.sin_pos_of_pos_of_lt_pi (by positivity) (by nlinarith)
  have hcosLeq : Real.cos (89.9 * π / 180) = Real.sin (π / 1800) := by
    rw [← Real.sin_pi_div_two_sub]
    congr 1
    ring
  have hcosLpos : 0 < Real.cos (89.9 * π / 180) := by
    rw [hcosLeq]
    exact Real.sin_pos_of_pos_of_lt_pi (by positivity) (by nlinarith)
  have hsinmono : Real.sin (π / 1800) < Real.sin (0.8333 * π / 180) := by
    apply Real.sin_lt_sin_of_lt_of_le_pi_div_two
    · have : (0 : ℝ) < π / 1800 := by positivity
      linarith
    · nlinarith
    · nlinarith
  have hdenpos : 0 < daylightDen 89.9 0 := by
    rw [daylightDen]
    exact mul_pos hcosLpos hcosPpos
  have hdenlt : daylightDen 89.9 0 < daylightNum 89.9 0 := by
    rw [daylightDen, daylightNum, hcosLeq]
    have hsin1800pos : 0 < Real.sin (π / 1800) := by
      rw [← hcosLeq]
      exact hcosLpos
    nlinarith
  rw [daylightArg]
  exact (one_lt_div hdenpos).mpr hdenlt

/-- At latitude 89.9°, day 0, the daylight hours are NaN. -/
theorem daylight_lat899_none : daylight_hours 89.9 0 = none := by
  have h1 := daylightArg_lat899_gt_one
  rw [daylight_hours, if_neg]
  intro hc
  have := (abs_le.mp hc.2).2
  linarith

/-- NaN daylight makes `solar_production_curve` return 0: the saturating casts
turn the window into the single point noon, and every time of day is on or
outside that boundary. -/
theorem spc_none_daylight {now : ℤ} {lat : ℝ}
    (hd : daylight_hours lat (ordinal0DT now) = none) :
    solar_production_curve now lat = some 0 := by
  have hcast : castU32 ((daylight_hours lat (ordinal0OfDay (dateOf now))).map
      fun v => v / 2 * 60 * 60) = 0 := by
    rw [show ordinal0OfDay (dateOf now) = ordinal0DT now from rfl, hd]
    rfl
  rw [spc_eq_of_somes (sunrise_eq (dateOf now) lat)
    (sunset_eq_of_lt (by rw [hcast]; norm_num))]
  rw [hcast, if_pos (by omega)]

/-- Evaluation of `bounded_daylight_hours` on NaN daylight: zero hours. -/
theorem bdh_none_daylight (start end_ : ℤ) :
    bounded_daylight_hours start end_ none = some 0 := by
  rw [bounded_daylight_hours, bdd_none_daylight]
  simp

/-- A step whose start and end fall on NaN-daylight days has a finite net
energy: exactly the load drain. -/
theorem net_energy_nan_daylight {s : SimState}
    (hd1 : daylight_hours s.latitude (ordinal0DT s.now) = none)
    (hd2 : daylight_hours s.latitude (ordinal0DT (s.now + s.step_size)) = none) :
    net_energy s = some (-(s.load * (numMinutes s.step_size : ℝ) / 60)) := by
  have hc1 := spc_none_daylight hd1
  have hc2 := spc_none_daylight hd2
  have hp : solar_power s = some (s.solar_nominal_output * ((0 + 0) / 2)) := by
    rw [solar_power, hc1, hc2]
    rfl
  have hb : bounded_daylight_hours s.now (s.now + s.step_size)
      (daylight_hours s.latitude (ordinal0DT s.now)) = some 0 := by
    rw [hd1]
    exact bdh_none_daylight _ _
  rw [net_energy_eq hp hb]
  congr 1
  ring

/-- Spec formula for daylight hours, transcribed from the spec's own words
(section 4.1): `P = asin(0.39795*cos(0.2163108 +
2*atan(0.9671396*tan(0.0086*dayOfYear))))` and `hours = (24/pi) * acos(
(sin(0.8333 deg) + sin(latitude deg)*sin(P)) / (cos(latitude deg)*cos(P)) )`,
degree arguments converted to radians, and NaN (`none`) where the `acos`
argument falls outside [-1, 1] (a zero denominator makes that argument
±∞/NaN in `f32`, which is likewise outside [-1, 1]). -/
noncomputable def daylightHoursSpec (lat : ℝ) (day : ℕ) : Option ℝ :=
  let p := Real.arcsin (0.39795 *
    Real.cos (0.2163108 + 2 * Real.arctan (0.9671396 * Real.tan (0.0086 * (day : ℝ)))))
  let numerator := Real.sin (0.8333 * π / 180) + Real.sin (lat * π / 180) * Real.sin p
  let denom := Real.cos (lat * π / 180) * Real.cos p
  if denom ≠ 0 ∧ |numerator / denom| ≤ 1 then
    some (24 / π * Real.arccos (numerator / denom))
  else none

/-- Spec `averageSolarPower`, transcribed from the spec's words (section 4.2):
sample the coefficient at the start and the end timestamp of the current
step, average the two, multiply by nominal solar capacity. -/
noncomputable def averageSolarPowerSpec (s : SimState) : Option ℝ := do
  let c1 ← solar_production_curve s.now s.latitude
  let c2 ← solar_production_curve (s.now + s.step_size) s.latitude
  pure (s.solar_nominal_output * ((c1 + c2) / 2))

/-- Spec `netEnergy`, transcribed from the spec's words (section 4.3):
`averageSolarPower(state) * boundedDaylightHours(stepStart, stepEnd,
daylightHours(latitude, dayOfYear)) - load * stepMinutes/60`. -/
noncomputable def netEnergySpec (s : SimState) : Option ℝ := do
  let avg ← averageSolarPowerSpec s
  let bdh ← bounded_daylight_hours s.now (s.now + s.step_size)
              (daylight_hours s.latitude (ordinal0DT s.now))
  pure (avg * bdh - s.load * (numMinutes s.step_size : ℝ) / 60)

/-- Elimination form for a successful `step`: it is driven by a defined
`net_energy` and `solar_power`, and the result is the explicit record
update. -/
theorem step_some_elim {s s' : SimState} (hst : step s = some s') :
    ∃ delta p, net_energy s = some delta ∧ solar_power s = some p ∧
      s' = { s with
        charge_history := s.charge_history ++ [s.current_stored_energy]
        current_stored_energy :=
          if s.current_stored_energy + delta < 0 then 0
          else if s.current_stored_energy + delta > s.battery_capacity then s.battery_capacity
          else s.current_stored_energy + delta
        now := s.now + s.step_size
        history_dates := s.history_dates ++ [s.now]
        solar_history := s.solar_history ++ [p]
        daylight_history := s.daylight_history ++
          [daylight_hours s.latitude (ordinal0DT s.now)] } := by
  cases hne : net_energy s with
  | none => simp [step, hne] at hst
  | some delta =>
    cases hsp : solar_power s with
    | none => simp [step, hne, hsp] at hst
    | some p =>
      refine ⟨delta, p, rfl, rfl, ?_⟩
      have := step_eq hne hsp
      rw [hst] at this
      exact Option.some_inj.mp this

/-- A successful step clamps the stored energy exactly as the spec's `clamp`
describes. -/
theorem step_stored_clamp {s s' : SimState} {delta : ℝ} (hst : step s = some s')
    (hne : net_energy s = some delta) :
    s'.current_stored_energy =
      clamp (s.current_stored_energy + delta) 0 s.battery_capacity := by
  obtain ⟨d2, p, hne2, hsp, hrec⟩ := step_some_elim hst
  rw [hne] at hne2
  cases hne2
  rw [hrec, clamp]

/-- Bounds on the stored energy after any successful step, given a
non-negative capacity. -/
theorem step_stored_bounds {s s' : SimState} (hcap : 0 ≤ s.battery_capacity)
    (hst : step s = some s') :
    0 ≤ s'.current_stored_energy ∧ s'.current_stored_energy ≤ s'.battery_capacity := by
  obtain ⟨delta, p, hne, hsp, hrec⟩ := step_some_elim hst
  have hc := step_stored_clamp hst hne
  have hcap' : s'.battery_capacity = s.battery_capacity := (step_fields hst).2.2.2
  rw [hc, hcap', clamp]
  split
  · exact ⟨le_refl 0, hcap⟩
  · split
    · exact ⟨hcap, le_refl _⟩
    · rename_i h1 h2
      exact ⟨not_lt.mp h1, not_lt.mp h2⟩

/-- Unfolding of the successor case of `stepN`. -/
theorem stepN_succ (n : ℕ) (s : SimState) : stepN (n + 1) s = (stepN n s).bind step := rfl

/-- A successful `n+1`-step run factors through a successful `n`-step run. -/
theorem stepN_succ_elim {n : ℕ} {s s' : SimState} (h : stepN (n + 1) s = some s') :
    ∃ sm, stepN n s = some sm ∧ step sm = some s' := by
  rw [stepN_succ] at h
  cases hm : stepN n s with
  | none => rw [hm] at h; cases h
  | some sm =>
    rw [hm] at h
    exact ⟨sm, rfl, h⟩

/-- Iterated stepping splits additively. -/
theorem stepN_add (a b : ℕ) (s : SimState) :
    stepN (a + b) s = (stepN a s).bind (stepN b) := by
  induction b with
  | zero =>
    cases h : stepN a s <;> simp [stepN, h]
  | succ b ih =>
    rw [show a + (b + 1) = (a + b) + 1 from rfl, stepN_succ, ih]
    cases h : stepN a s with
    | none => simp
    | some sm => simp [stepN_succ]

/-- A successful long run restricts to a successful shorter run. -/
theorem stepN_some_of_le {n : ℕ} {s s' : SimState} (h : stepN n s = some s')
    {i : ℕ} (hi : i ≤ n) : ∃ si, stepN i s = some si := by
  obtain ⟨k, hk⟩ := Nat.exists_eq_add_of_le hi
  subst hk
  rw [stepN_add] at h
  cases hsi : stepN i s with
  | none => rw [hsi] at h; cases h
  | some si => exact ⟨si, rfl⟩

/-- Run parameters survive iterated stepping. -/
theorem stepN_params {n : ℕ} {s s' : SimState} (h : stepN n s = some s') :
    s'.step_size = s.step_size ∧ s'.battery_capacity = s.battery_capacity ∧
      s'.latitude = s.latitude := by
  induction n generalizing s' with
  | zero =>
    cases h
    exact ⟨rfl, rfl, rfl⟩
  | succ n ih =>
    obtain ⟨sm, hm, hstep⟩ := stepN_succ_elim h
    obtain ⟨h1, h2, h3⟩ := ih hm
    have hf := step_fields hstep
    exact ⟨hf.2.1.trans h1, hf.2.2.2.trans h2, hf.2.2.1.trans h3⟩

/-- The clock after `n` successful steps. -/
theorem stepN_now {n : ℕ} {s s' : SimState} (h : stepN n s = some s') :
    s'.now = s.now + n * s.step_size := by
  induction n generalizing s' with
  | zero =>
    cases h
    simp
  | succ n ih =>
    obtain ⟨sm, hm, hstep⟩ := stepN_succ_elim h
    have hf := step_fields hstep
    have hsz := (stepN_params hm).1
    rw [hf.1, ih hm, hsz]
    push_cast
    ring

/-- The loop returns immediately once the clock reaches the boundary. -/
theorem runLoop_done {endB : ℤ} {s : SimState} (h : endB ≤ s.now) :
    runLoop endB s = some s := by
  rw [runLoop, if_pos h]

/-- The loop takes one successful step and continues. -/
theorem runLoop_step {endB : ℤ} {s s2 : SimState} (hlt : ¬ endB ≤ s.now)
    (hpos : 0 < s.step_size) (hst : step s = some s2) :
    runLoop endB s = runLoop endB s2 := by
  rw [runLoop, if_neg hlt, if_pos hpos]
  split
  · rename_i heq
    rw [hst] at heq
    cases heq
  · rename_i s3 heq
    rw [hst] at heq
    cases heq
    rfl

/-- A failing step aborts the loop (panic). -/
theorem runLoop_panic {endB : ℤ} {s : SimState} (hlt : ¬ endB ≤ s.now)
    (hpos : 0 < s.step_size) (hst : step s = none) :
    runLoop endB s = none := by
  rw [runLoop, if_neg hlt, if_pos hpos]
  split
  · rfl
  · rename_i s3 heq
    rw [hst] at heq
    cases heq

/-- A non-positive step size inside the loop is modelled as `none`. -/
theorem runLoop_stuck {endB : ℤ} {s : SimState} (hlt : ¬ endB ≤ s.now)
    (hpos : ¬ 0 < s.step_size) : runLoop endB s = none := by
  rw [runLoop, if_neg hlt, if_neg hpos]

/-- Fuel-bounded induction: whatever state the loop returns has reached the
end boundary. -/
theorem runLoop_now_ge_aux (endB : ℤ) (n : ℕ) :
    ∀ s s' : SimState, (endB - s.now).toNat ≤ n → runLoop endB s = some s' →
      endB ≤ s'.now := by
  induction n with
  | zero =>
    intro s s' hn h
    have hle : endB ≤ s.now := by omega
    rw [runLoop_done hle] at h
    cases h
    exact hle
  | succ n ih =>
    intro s s' hn h
    by_cases hle : endB ≤ s.now
    · rw [runLoop_done hle] at h
      cases h
      exact hle
    · by_cases hpos : 0 < s.step_size
      · cases hst : step s with
        | none =>
          rw [runLoop_panic hle hpos hst] at h
          cases h
        | some s2 =>
          rw [runLoop_step hle hpos hst] at h
          have hnow := (step_fields hst).1
          exact ih s2 s' (by omega) h
      · rw [runLoop_stuck hle hpos] at h
        cases h

/-- Whatever state the loop returns has reached the end boundary. -/
theorem runLoop_now_ge {endB : ℤ} {s s' : SimState} (h : runLoop endB s = some s') :
    endB ≤ s'.now :=
  runLoop_now_ge_aux endB (endB - s.now).toNat s s' le_rfl h

/-- Fuel-bounded induction: at latitudes within ±66° and with a positive step
size, the loop always returns a state. -/
theorem runLoop_some_aux (endB : ℤ) (n : ℕ) :
    ∀ s : SimState, (endB - s.now).toNat ≤ n → 0 < s.step_size → |s.latitude| ≤ 66 →
      ∃ s', runLoop endB s = some s' := by
  induction n with
  | zero =>
    intro s hn hpos hlat
    exact ⟨s, runLoop_done (by omega)⟩
  | succ n ih =>
    intro s hn hpos hlat
    by_cases hle : endB ≤ s.now
    · exact ⟨s, runLoop_done hle⟩
    · obtain ⟨s2, hst⟩ := step_some_of_ok
        (daylightOk_of_lat66 hlat (ordinal0DT s.now))
        (daylightOk_of_lat66 hlat (ordinal0DT (s.now + s.step_size)))
      obtain ⟨hnow, hsz, hlat2, -⟩ := step_fields hst
      obtain ⟨s'', h''⟩ := ih s2 (by omega) (by rw [hsz]; exact hpos) (by rw [hlat2]; exact hlat)
      exact ⟨s'', by rw [runLoop_step hle hpos hst]; exact h''⟩

/-- At latitudes within ±66° and with a positive step size, the loop always
returns a state. -/
theorem runLoop_some {endB : ℤ} {s : SimState} (hpos : 0 < s.step_size)
    (hlat : |s.latitude| ≤ 66) : ∃ s', runLoop endB s = some s' :=
  runLoop_some_aux endB (endB - s.now).toNat s le_rfl hpos hlat

/-- One step appends exactly one sample to each history, in pre-step order. -/
theorem step_histories {s s' : SimState} (hst : step s = some s') :
    s'.charge_history = s.charge_history ++ [s.current_stored_energy] ∧
      s'.history_dates = s.history_dates ++ [s.now] ∧
      (∃ p, s'.solar_history = s.solar_history ++ [p]) ∧
      (∃ d, s'.daylight_history = s.daylight_history ++ [d]) := by
  obtain ⟨delta, p, hne, hsp, hrec⟩ := step_some_elim hst
  rw [hrec]
  exact ⟨rfl, rfl, ⟨p, rfl⟩, ⟨_, rfl⟩⟩

/-- Full history alignment along a run started with empty histories: after
`n` steps every history has length `n`, and entry `i` of the charge and
timestamp histories is the pre-step state of step `i`. -/
theorem stepN_history_spec {s0 : SimState} (h1 : s0.charge_history = [])
    (h2 : s0.history_dates = []) (h3 : s0.solar_history = [])
    (h4 : s0.daylight_history = []) :
    ∀ n s', stepN n s0 = some s' →
      (s'.charge_history.length = n ∧ s'.history_dates.length = n ∧
        s'.solar_history.length = n ∧ s'.daylight_history.length = n) ∧
      ∀ i, i < n → ∀ si, stepN i s0 = some si →
        s'.charge_history.get? i = some si.current_stored_energy ∧
        s'.history_dates.get? i = some si.now := by
  intro n
  induction n with
  | zero =>
    intro s' h
    cases h
    refine ⟨⟨by rw [h1]; rfl, by rw [h2]; rfl, by rw [h3]; rfl, by rw [h4]; rfl⟩, ?_⟩
    intro i hi
    exact absurd hi (Nat.not_lt_zero i)
  | succ n ih =>
    intro s' h
    obtain ⟨sm, hm, hstep⟩ := stepN_succ_elim h
    obtain ⟨⟨l1, l2, l3, l4⟩, hent⟩ := ih sm hm
    obtain ⟨hc, hd, ⟨p, hp⟩, ⟨dl, hdl⟩⟩ := step_histories hstep
    refine ⟨⟨?_, ?_, ?_, ?_⟩, ?_⟩
    · rw [hc, List.length_append, l1]
      rfl
    · rw [hd, List.length_append, l2]
      rfl
    · rw [hp, List.length_append, l3]
      rfl
    · rw [hdl, List.length_append, l4]
      rfl
    · intro i hi si hsi
      by_cases hilt : i < n
      · obtain ⟨e1, e2⟩ := hent i hilt si hsi
        rw [hc, hd, List.get?_append (by rw [l1]; exact hilt),
          List.get?_append (by rw [l2]; exact hilt)]
        exact ⟨e1, e2⟩
      · have hieq : i = n := by omega
        subst hieq
        rw [hm] at hsi
        cases hsi
        constructor
        · rw [hc, show i = sm.charge_history.length from l1.symm, List.get?_concat_length]
        · rw [hd, show i = sm.history_dates.length from l2.symm, List.get?_concat_length]

/-- Harmless daylight at the equator. -/
theorem daylightOk_equator (day : ℕ) : daylightOk 0 day := by
  obtain ⟨v, hv, -, hlt⟩ := daylight_equator day
  exact Or.inr ⟨v, hv, by linarith⟩

/-- The state of the source's `test_step_1`: 2023-01-01 noon, 2-hour step,
100 Wh capacity at 50 Wh, no solar, 20 W load, equator latitude. -/
def testState1 : SimState :=
  { SimState.new with
    now := 43200
    step_size := 7200
    battery_capacity := 100
    current_stored_energy := 50
    solar_nominal_output := 0
    load := 20 }

/-- Net energy of the `test_step_1` state: a pure 40 Wh load drain. -/
theorem net_energy_testState1 : net_energy testState1 = some (-40) := by
  have h1 : daylightOk testState1.latitude (ordinal0DT testState1.now) :=
    daylightOk_equator _
  have h2 : daylightOk testState1.latitude
      (ordinal0DT (testState1.now + testState1.step_size)) := daylightOk_equator _
  obtain ⟨c1, hc1, -, -⟩ := spc_some_of_ok h1
  obtain ⟨c2, hc2, -, -⟩ := spc_some_of_ok h2
  obtain ⟨b, hb⟩ := bdh_some_of_ok h1 testState1.now (testState1.now + testState1.step_size)
  have hp : solar_power testState1 =
      some (testState1.solar_nominal_output * ((c1 + c2) / 2)) := by
    rw [solar_power, hc1, hc2]
    rfl
  rw [net_energy_eq hp hb]
  congr 1
  have hz : testState1.solar_nominal_output = 0 := rfl
  have hl : testState1.load = 20 := rfl
  have hm : numMinutes testState1.step_size = 120 := by decide
  rw [hz, hl, hm]
  norm_num

/-- The `test_step_1` step succeeds and stores exactly 10 Wh. -/
theorem step_testState1 :
    ∃ s', step testState1 = some s' ∧ s'.current_stored_energy = 10 := by
  cases hsp : solar_power testState1 with
  | none =>
    have hne := net_energy_testState1
    rw [net_energy, hsp] at hne
    cases hne
  | some p =>
    refine ⟨_, step_eq net_energy_testState1 hsp, ?_⟩
    have hst : step testState1 = some _ := step_eq net_energy_testState1 hsp
    rw [step_stored_clamp hst net_energy_testState1]
    show clamp ((50 : ℝ) + -40) 0 100 = 10
    rw [clamp]
    norm_num

/-- A state pinned at latitude 89.9° on day 0 of 2023 (polar day for this
formula: the `acos` argument exceeds 1, so the daylight hours are NaN). -/
def polarState : SimState :=
  { SimState.new with
    latitude := 89.9
    now := 0
    step_size := 3600
    load := 20
    solar_nominal_output := 100
    battery_capacity := 100
    current_stored_energy := 50 }

theorem ordinal0DT_zero : ordinal0DT 0 = 0 := by decide

theorem ordinal0DT_3600 : ordinal0DT 3600 = 0 := by decide

/-- Despite NaN daylight hours, the polar state's net energy is the finite
load drain: the saturating casts launder the NaN before it can spread. -/
theorem net_energy_polarState : net_energy polarState = some (-20) := by
  have hd1 : daylight_hours polarState.latitude (ordinal0DT polarState.now) = none := by
    show daylight_hours 89.9 (ordinal0DT 0) = none
    rw [ordinal0DT_zero]
    exact daylight_lat899_none
  have hd2 : daylight_hours polarState.latitude
      (ordinal0DT (polarState.now + polarState.step_size)) = none := by
    show daylight_hours 89.9 (ordinal0DT (0 + 3600)) = none
    rw [show (0 : ℤ) + 3600 = 3600 by norm_num, ordinal0DT_3600]
    exact daylight_lat899_none
  rw [net_energy_nan_daylight hd1 hd2]
  congr 1
  have hl : polarState.load = 20 := rfl
  have hm : numMinutes polarState.step_size = 60 := by decide
  rw [hl, hm]
  norm_num

/-- A one-day run: start day = end day = 1 makes the loop exit immediately. -/
def trivialState : SimState :=
  { SimState.new with start_day := 1, end_day := 1, step_size := 3600 }

/-- The trivial run returns its reset state untouched. -/
theorem run_trivialState : run_simulation trivialState =
    some { trivialState with
      now := 0
      current_stored_energy := 0
      charge_history := []
      history_dates := []
      solar_history := []
      daylight_history := [] } := by
  have h1 : withOrdinal2023 (if trivialState.start_day = 0 then 1
      else trivialState.start_day) = some 0 := by decide
  have h2 : withOrdinal2023 (if trivialState.end_day = 0 then 1
      else trivialState.end_day) = some 0 := by decide
  rw [run_simulation, h1]
  simp only [Option.bind_eq_bind, Option.some_bind]
  rw [h2]
  simp only [Option.bind_eq_bind, Option.some_bind]
  exact runLoop_done (by norm_num)

/-- Evaluation of `bounded_daylight_duration` for a plain daylight value in
(-24, 24): both time constructions succeed and the result is the
zero-or-overlap rule on the truncated sunrise/sunset times. -/
theorem bdd_eval {start end_ : ℤ} {h : ℝ} (hgt : -24 < h) (hlt : h < 24) :
    bounded_daylight_duration start end_ (some h) =
      some (if end_ < midnightOf start + ⌊(12 - h / 2) * 60 * 60⌋ ∨
              start > midnightOf start + ⌊(12 + h / 2) * 60 * 60⌋ then 0
            else earlier_of end_ (midnightOf start + ⌊(12 + h / 2) * 60 * 60⌋) -
              later_of start (midnightOf start + ⌊(12 - h / 2) * 60 * 60⌋)) := by
  have hr0 : (0 : ℝ) ≤ (12 - h / 2) * 60 * 60 := by nlinarith
  have hrlt : (12 - h / 2) * 60 * 60 < 86400 := by nlinarith
  have hs0 : (0 : ℝ) ≤ (12 + h / 2) * 60 * 60 := by nlinarith
  have hslt : (12 + h / 2) * 60 * 60 < 86400 := by nlinarith
  have hfr0 : 0 ≤ ⌊(12 - h / 2) * 60 * 60⌋ := Int.floor_nonneg.mpr hr0
  have hfs0 : 0 ≤ ⌊(12 + h / 2) * 60 * 60⌋ := Int.floor_nonneg.mpr hs0
  have hfrlt : ⌊(12 - h / 2) * 60 * 60⌋ < 86400 := Int.floor_lt.mpr (by exact_mod_cast hrlt)
  have hfslt : ⌊(12 + h / 2) * 60 * 60⌋ < 86400 := Int.floor_lt.mpr (by exact_mod_cast hslt)
  have hrT : naiveTimeOfSecs (castU32 ((some h).map fun v => (12 - v / 2) * 60 * 60)) =
      some ⌊(12 - h / 2) * 60 * 60⌋.toNat := by
    rw [Option.map_some', castU32_some_eq hr0 (by linarith), naiveTimeOfSecs, if_pos (by omega)]
  have hsT : naiveTimeOfSecs (castU32 ((some h).map fun v => (12 + v / 2) * 60 * 60)) =
      some ⌊(12 + h / 2) * 60 * 60⌋.toNat := by
    rw [Option.map_some', castU32_some_eq hs0 (by linarith), naiveTimeOfSecs, if_pos (by omega)]
  rw [bdd_eq_of_somes hrT hsT]
  rw [Int.toNat_of_nonneg hfr0, Int.toNat_of_nonneg hfs0]

/-- Concrete evaluation behind the spec's 0.25-hour overlap test:
05:15-06:15 against a 12-hour daylight window. -/
theorem bdh_quarter : bounded_daylight_hours 18900 22500 (some 12) = some 0.25 := by
  rw [bounded_daylight_hours, bdd_eval (by norm_num) (by norm_num)]
  rw [show midnightOf (18900 : ℤ) = 0 by decide]
  rw [show ⌊((12 : ℝ) - 12 / 2) * 60 * 60⌋ = 21600 by norm_num]
  rw [show ⌊((12 : ℝ) + 12 / 2) * 60 * 60⌋ = 64800 by norm_num]
  rw [if_neg (by omega), earlier_of, later_of, if_pos (by omega), if_neg (by omega)]
  rw [Option.map_some']
  norm_num

/-- The curve `solar_production_curve` is `none` when the sunset construction panics. -/
theorem spc_none_of_sunset_none {now : ℤ} {lat : ℝ}
    (hs : sunset (dateOf now) lat = none) : solar_production_curve now lat = none := by
  rw [solar_production_curve, hs]
  cases sunrise (dateOf now) lat <;> rfl

/-- The solar coefficient at 06:00 with the latitude-12° daylight window is
exactly 0 (the sunrise boundary is inclusive, and that day's window starts at
or after 06:00). -/
theorem spc_0600_lat12 : solar_production_curve 21600 12 = some 0 := by
  obtain ⟨v, hv, h0, h12⟩ := daylight_lat12
  have hd : daylight_hours 12 (ordinal0OfDay (dateOf 21600)) = some v := by
    rw [show ordinal0OfDay (dateOf (21600 : ℤ)) = 0 by decide]
    exact hv
  have hcast : castU32 ((daylight_hours 12 (ordinal0OfDay (dateOf 21600))).map
      fun w => w / 2 * 60 * 60) = ⌊v / 2 * 60 * 60⌋.toNat := by
    rw [hd, Option.map_some', castU32_some_eq (by positivity) (by nlinarith)]
  have hle : ⌊v / 2 * 60 * 60⌋.toNat ≤ 21600 := by
    have hfl : ⌊v / 2 * 60 * 60⌋ ≤ ⌊(21600 : ℝ)⌋ := Int.floor_le_floor (by nlinarith)
    rw [show ⌊(21600 : ℝ)⌋ = 21600 by norm_num] at hfl
    omega
  have hlt43200 : castU32 ((daylight_hours 12 (ordinal0OfDay (dateOf 21600))).map
      fun w => w / 2 * 60 * 60) < 43200 := by
    rw [hcast]
    omega
  rw [spc_eq_of_somes (sunrise_eq (dateOf 21600) 12) (sunset_eq_of_lt hlt43200)]
  rw [hcast, if_pos]
  left
  rw [show timeOfDaySec (21600 : ℤ) = 21600 by decide]
  omega

/-- The `test_step_1` state with freshly reset histories. -/
def testReset : SimState :=
  { testState1 with
    charge_history := []
    history_dates := []
    solar_history := []
    daylight_history := [] }

/-- C1: for every run with a non-negative battery capacity and every positive
number of applied steps, the stored energy afterwards satisfies
`0 ≤ storedEnergy ≤ batteryCapacity`: the clamping in `step` keeps the charge
inside the battery's bounds at every reachable state. -/
theorem c1_stored_energy_bounds (s : SimState) (n : ℕ) (s' : SimState)
    (hcap : 0 ≤ s.battery_capacity) (h : stepN (n + 1) s = some s') :
    0 ≤ s'.current_stored_energy ∧ s'.current_stored_energy ≤ s'.battery_capacity := by
  obtain ⟨sm, hm, hstep⟩ := stepN_succ_elim h
  have hcapm : sm.battery_capacity = s.battery_capacity := (stepN_params hm).2.1
  exact step_stored_bounds (by rw [hcapm]; exact hcap) hstep

theorem c1_witness : ∃ s', stepN 1 testState1 = some s' ∧
    0 ≤ s'.current_stored_energy ∧ s'.current_stored_energy ≤ s'.battery_capacity := by
  obtain ⟨s', hst, -⟩ := step_testState1
  have h1 : stepN 1 testState1 = some s' := by
    rw [stepN_succ]
    simpa [stepN] using hst
  exact ⟨s', h1, c1_stored_energy_bounds testState1 0 s'
    (by show (0 : ℝ) ≤ 100; norm_num) h1⟩

/-- C2: every successful step sets the new stored energy to
`clamp(storedEnergy + netEnergy(state), 0, batteryCapacity)`; and on the
concrete input load = 20 W, capacity = 100 Wh, no solar, 50 Wh stored and a
2-hour step, one step yields exactly 10 Wh. -/
theorem c2_step_clamps :
    (∀ (s s' : SimState) (delta : ℝ), step s = some s' → net_energy s = some delta →
      s'.current_stored_energy =
        clamp (s.current_stored_energy + delta) 0 s.battery_capacity) ∧
    ∃ s', step testState1 = some s' ∧ s'.current_stored_energy = 10 :=
  ⟨fun _ _ _ hst hne => step_stored_clamp hst hne, step_testState1⟩

theorem c2_witness : ∃ s', step testState1 = some s' ∧
    s'.current_stored_energy =
      clamp (testState1.current_stored_energy + (-40)) 0 testState1.battery_capacity := by
  obtain ⟨s', hst, -⟩ := step_testState1
  exact ⟨s', hst, c2_step_clamps.1 testState1 s' (-40) hst net_energy_testState1⟩

/-- C3: after any prefix of `n` steps of a run (a state with freshly reset
histories), all four histories have length exactly `n`; entry `i` of the
charge history is the stored energy before step `i` and entry `i` of the
timestamps is the clock before step `i`, so the final step's resulting charge
is never appended; and consecutive timestamps increase by exactly the step
size, strictly when it is positive. -/
theorem c3_history_alignment (s0 : SimState) (h1 : s0.charge_history = [])
    (h2 : s0.history_dates = []) (h3 : s0.solar_history = [])
    (h4 : s0.daylight_history = []) (n : ℕ) (s' : SimState)
    (h : stepN n s0 = some s') :
    (s'.charge_history.length = n ∧ s'.history_dates.length = n ∧
      s'.solar_history.length = n ∧ s'.daylight_history.length = n) ∧
    (∀ i, i < n → ∀ si, stepN i s0 = some si →
      s'.charge_history.get? i = some si.current_stored_energy ∧
      s'.history_dates.get? i = some si.now) ∧
    (∀ i a b, i + 1 < n → s'.history_dates.get? i = some a →
      s'.history_dates.get? (i + 1) = some b →
      b = a + s0.step_size ∧ (0 < s0.step_size → a < b)) := by
  obtain ⟨hlen, hent⟩ := stepN_history_spec h1 h2 h3 h4 n s' h
  refine ⟨hlen, hent, ?_⟩
  intro i a b hi ha hb
  obtain ⟨si, hsi⟩ := stepN_some_of_le h (by omega : i ≤ n)
  obtain ⟨si1, hsi1⟩ := stepN_some_of_le h (by omega : i + 1 ≤ n)
  obtain ⟨e1, e2⟩ := hent i (by omega) si hsi
  obtain ⟨f1, f2⟩ := hent (i + 1) hi si1 hsi1
  have hav : a = si.now := by
    rw [ha] at e2
    exact Option.some_inj.mp e2
  have hbv : b = si1.now := by
    rw [hb] at f2
    exact Option.some_inj.mp f2
  obtain ⟨sm, hsm, hstep⟩ := stepN_succ_elim hsi1
  have hsmsi : sm = si := by
    rw [hsi] at hsm
    exact (Option.some_inj.mp hsm).symm
  subst hsmsi
  have hnow := (step_fields hstep).1
  have hsz := (stepN_params hsi).1
  constructor
  · rw [hbv, hav, hnow, hsz]
  · intro hpos
    rw [hbv, hav, hnow, hsz]
    omega

theorem c3_witness :
    ∃ s', stepN 1 testReset = some s' ∧
      s'.charge_history.length = 1 ∧ s'.history_dates.length = 1 := by
  have h1 : daylightOk testReset.latitude (ordinal0DT testReset.now) :=
    daylightOk_equator _
  have h2 : daylightOk testReset.latitude
      (ordinal0DT (testReset.now + testReset.step_size)) := daylightOk_equator _
  obtain ⟨s2, hst⟩ := step_some_of_ok h1 h2
  have hN : stepN 1 testReset = some s2 := by
    rw [stepN_succ]
    simpa [stepN] using hst
  obtain ⟨⟨l1, l2, -, -⟩, -, -⟩ :=
    c3_history_alignment _ rfl rfl rfl rfl 1 s2 hN
  exact ⟨s2, hN, l1, l2⟩

/-- C4: `net_energy` equals the spec's formula `averageSolarPower(state) *
boundedDaylightHours(stepStart, stepEnd, daylightHours(latitude, dayOfYear))
− load * stepMinutes/60`, where `averageSolarPower` is the nominal output
times the trapezoidal average of the solar coefficient sampled at the start
and end of the step. -/
theorem c4_net_energy_formula :
    (∀ s : SimState, net_energy s = netEnergySpec s) ∧
    (∀ (s : SimState) (c1 c2 b : ℝ),
      solar_production_curve s.now s.latitude = some c1 →
      solar_production_curve (s.now + s.step_size) s.latitude = some c2 →
      bounded_daylight_hours s.now (s.now + s.step_size)
        (daylight_hours s.latitude (ordinal0DT s.now)) = some b →
      net_energy s = some (s.solar_nominal_output * ((c1 + c2) / 2) * b -
        s.load * (numMinutes s.step_size : ℝ) / 60)) := by
  constructor
  · intro s
    rfl
  · intro s c1 c2 b hc1 hc2 hb
    have hp : solar_power s = some (s.solar_nominal_output * ((c1 + c2) / 2)) := by
      rw [solar_power, hc1, hc2]
      rfl
    exact net_energy_eq hp hb

theorem c4_witness : ∃ c1 c2 b : ℝ,
    solar_production_curve testState1.now testState1.latitude = some c1 ∧
    solar_production_curve (testState1.now + testState1.step_size) testState1.latitude =
      some c2 ∧
    bounded_daylight_hours testState1.now (testState1.now + testState1.step_size)
      (daylight_hours testState1.latitude (ordinal0DT testState1.now)) = some b ∧
    net_energy testState1 = some (testState1.solar_nominal_output * ((c1 + c2) / 2) * b -
      testState1.load * (numMinutes testState1.step_size : ℝ) / 60) := by
  have h1 : daylightOk testState1.latitude (ordinal0DT testState1.now) :=
    daylightOk_equator _
  have h2 : daylightOk testState1.latitude
      (ordinal0DT (testState1.now + testState1.step_size)) := daylightOk_equator _
  obtain ⟨c1, hc1, -, -⟩ := spc_some_of_ok h1
  obtain ⟨c2, hc2, -, -⟩ := spc_some_of_ok h2
  obtain ⟨b, hb⟩ := bdh_some_of_ok h1 testState1.now (testState1.now + testState1.step_size)
  exact ⟨c1, c2, b, hc1, hc2, hb,
    c4_net_energy_formula.2 testState1 c1 c2 b hc1 hc2 hb⟩

/-- C5: `daylight_hours` implements exactly the spec's formula (`P` from the
day ordinal, then `(24/π)·acos((sin 0.8333° + sin lat°·sin P)/(cos lat°·cos
P))` with degrees converted to radians, NaN outside the `acos` domain); and
`daylight_hours(0, 85)` is defined and within 0.15 hours of 12. -/
theorem c5_daylight_formula_and_equinox :
    (∀ (lat : ℝ) (day : ℕ), daylight_hours lat day = daylightHoursSpec lat day) ∧
    ∃ v, daylight_hours 0 85 = some v ∧ |v - 12| < 0.15 := by
  constructor
  · intro lat day
    rfl
  · obtain ⟨v, hv, hgt, hlt⟩ := daylight_equator 85
    refine ⟨v, hv, ?_⟩
    rw [abs_lt]
    constructor <;> linarith

/-- C6: whenever `solar_production_curve` returns (every input at which the
Rust function does not panic), its value lies in [0, 1]; it returns 0 at or
outside the `[sunrise, sunset]` window (inclusive boundaries); strictly
inside the window it returns `0.5·cos((2π/daylightHours)·(hourOfDay − 12)) +
0.5`; and at 06:00 against the latitude-12° daylight window it returns
exactly 0. -/
theorem c6_solar_coefficient :
    (∀ (now : ℤ) (lat : ℝ) (c : ℝ), solar_production_curve now lat = some c →
      0 ≤ c ∧ c ≤ 1) ∧
    (∀ (now : ℤ) (lat : ℝ) (r s' : ℕ), sunrise (dateOf now) lat = some r →
      sunset (dateOf now) lat = some s' →
      (timeOfDaySec now ≤ r ∨ s' ≤ timeOfDaySec now) →
      solar_production_curve now lat = some 0) ∧
    (∀ (now : ℤ) (lat : ℝ) (r s' : ℕ) (v : ℝ), sunrise (dateOf now) lat = some r →
      sunset (dateOf now) lat = some s' →
      daylight_hours lat (ordinal0DT now) = some v →
      r < timeOfDaySec now → timeOfDaySec now < s' →
      solar_production_curve now lat =
        some (0.5 * Real.cos (2 * π / v * (time_hours (timeOfDaySec now) - 12)) + 0.5)) ∧
    solar_production_curve 21600 12 = some 0 := by
  refine ⟨?_, ?_, ?_, spc_0600_lat12⟩
  · intro now lat c hc
    cases hs : sunset (dateOf now) lat with
    | none =>
      rw [spc_none_of_sunset_none hs] at hc
      cases hc
    | some s' =>
      rw [spc_eq_of_somes (sunrise_eq (dateOf now) lat) hs] at hc
      rw [← Option.some_inj.mp hc]
      split
      · norm_num
      · cases hd : daylight_hours lat (ordinal0DT now) with
        | none =>
          constructor <;> norm_num
        | some lightHours =>
          have hc1 := Real.neg_one_le_cos (2 * π / lightHours *
            (time_hours (timeOfDaySec now) - 12))
          have hc2 := Real.cos_le_one (2 * π / lightHours *
            (time_hours (timeOfDaySec now) - 12))
          constructor
          · show (0 : ℝ) ≤ 0.5 * Real.cos (2 * π / lightHours *
              (time_hours (timeOfDaySec now) - 12)) + 0.5
            linarith
          · show 0.5 * Real.cos (2 * π / lightHours *
              (time_hours (timeOfDaySec now) - 12)) + 0.5 ≤ 1
            linarith
  · intro now lat r s' hr hs hcond
    rw [spc_eq_of_somes hr hs, if_pos hcond]
  · intro now lat r s' v hr hs hv hlt1 hlt2
    rw [spc_eq_of_somes hr hs, if_neg (by omega), hv]

theorem c6_witness : (0 : ℝ) ≤ 0 ∧ (0 : ℝ) ≤ 1 :=
  c6_solar_coefficient.1 21600 12 0 spc_0600_lat12

/-- C7 counterexample: at the daylight-hours value 24 the constructed sunset
time is 86400 s, so `bounded_daylight_duration` panics (`none`) instead of
returning the overlap the claim predicts (which would be `min(end, sunset) −
max(start, sunrise) = 3600` for start 0, end 3600). -/
theorem c7_counterexample :
    bounded_daylight_duration 0 3600 (some 24) = none ∧
      earlier_of 3600 86400 - later_of 0 0 = 3600 := by
  constructor
  · have hcast : castU32 ((some (24 : ℝ)).map fun v => (12 + v / 2) * 60 * 60) = 86400 := by
      rw [Option.map_some', castU32_some_eq (by norm_num) (by norm_num)]
      rw [show ((12 : ℝ) + 24 / 2) * 60 * 60 = 86400 by norm_num]
      rw [show ⌊(86400 : ℝ)⌋ = 86400 by norm_num]
      rfl
    rw [bounded_daylight_duration, hcast]
    rw [show naiveTimeOfSecs 86400 = none from rfl]
    cases naiveTimeOfSecs (castU32 ((some (24 : ℝ)).map fun v =>
      (12 - v / 2) * 60 * 60)) <;> rfl
  · rw [earlier_of, later_of]
    norm_num

/-- C7 amended: for every start ≤ end and every daylight-hours value in the
open interval (-24, 24) — the values for which both constructed times are
valid — `bounded_daylight_duration` computes the truncated sunrise/sunset
times symmetric about noon of start's calendar date and returns zero when
`end < sunrise` or `start > sunset`, and otherwise `min(end, sunset) −
max(start, sunrise)`; `bounded_daylight_hours` is that duration divided by
3600, and the 05:15-06:15 window against 12 daylight hours gives 0.25. -/
theorem c7_bounded_daylight_overlap :
    (∀ (start end_ : ℤ) (h : ℝ), start ≤ end_ → -24 < h → h < 24 →
      bounded_daylight_duration start end_ (some h) =
        some (if end_ < midnightOf start + ⌊(12 - h / 2) * 60 * 60⌋ ∨
                start > midnightOf start + ⌊(12 + h / 2) * 60 * 60⌋ then 0
              else earlier_of end_ (midnightOf start + ⌊(12 + h / 2) * 60 * 60⌋) -
                later_of start (midnightOf start + ⌊(12 - h / 2) * 60 * 60⌋))) ∧
    (∀ a b : ℤ, earlier_of a b = min a b ∧ later_of a b = max a b) ∧
    (∀ (start end_ : ℤ) (ho : Option ℝ), bounded_daylight_hours start end_ ho =
      (bounded_daylight_duration start end_ ho).map fun d : ℤ => (d : ℝ) / (60 * 60)) ∧
    bounded_daylight_hours 18900 22500 (some 12) = some 0.25 := by
  refine ⟨?_, ?_, ?_, bdh_quarter⟩
  · intro start end_ h _ hgt hlt
    exact bdd_eval hgt hlt
  · intro a b
    constructor
    · rw [earlier_of]
      split <;> omega
    · rw [later_of]
      split <;> omega
  · intro start end_ ho
    rfl

theorem c7_witness : ∃ d, bounded_daylight_duration 18900 22500 (some 12) = some d :=
  ⟨_, c7_bounded_daylight_overlap.1 18900 22500 12 (by norm_num) (by norm_num) (by norm_num)⟩

/-- C8 counterexample: at latitude 89.9°, day ordinal 0, the `acos` argument
exceeds 1, so `daylight_hours` is NaN — yet a one-hour step at that latitude
and day has the *finite* net energy −20 Wh (the 20 W load drain), not NaN:
the claim's "poisons that step's energy calculation" is false there. -/
theorem c8_counterexample : daylight_hours 89.9 0 = none ∧
    net_energy polarState = some (-20) :=
  ⟨daylight_lat899_none, net_energy_polarState⟩

/-- C8 amended: wherever the `acos` argument falls outside [-1, 1],
`daylight_hours` returns NaN, but a simulation step contained in that day has
the finite net energy `−load·stepMinutes/60`: the saturating float→integer
casts collapse the NaN daylight window to the single point noon, zeroing the
solar terms instead of propagating NaN into the energy calculation. -/
theorem c8_nan_daylight_is_laundered (s : SimState)
    (harg : 1 < |daylightArg s.latitude (ordinal0DT s.now)|)
    (hsame : ordinal0DT (s.now + s.step_size) = ordinal0DT s.now) :
    daylight_hours s.latitude (ordinal0DT s.now) = none ∧
    net_energy s = some (-(s.load * (numMinutes s.step_size : ℝ) / 60)) := by
  have hd1 : daylight_hours s.latitude (ordinal0DT s.now) = none := by
    rw [daylight_hours, if_neg]
    intro hcon
    have := (abs_le.mp hcon.2).2
    have habs := le_abs_self (daylightArg s.latitude (ordinal0DT s.now))
    linarith [hcon.2]
  exact ⟨hd1, net_energy_nan_daylight hd1 (by rw [hsame]; exact hd1)⟩

theorem c8_witness :
    daylight_hours polarState.latitude (ordinal0DT polarState.now) = none ∧
      net_energy polarState =
        some (-(polarState.load * (numMinutes polarState.step_size : ℝ) / 60)) := by
  apply c8_nan_daylight_is_laundered
  · show 1 < |daylightArg 89.9 (ordinal0DT 0)|
    rw [ordinal0DT_zero]
    have h := daylightArg_lat899_gt_one
    rw [abs_of_pos (by linarith)]
    exact h
  · show ordinal0DT ((0 : ℤ) + 3600) = ordinal0DT 0
    decide

/-- Day-366 parameters: every other constraint of the claim holds
(non-negative load, capacity and solar, positive step size, ordered days in
1..366). -/
def day366State : SimState :=
  { SimState.new with start_day := 366, end_day := 366, step_size := 3600 }

/-- C9 counterexample: with start and end day 366 — inside the spec's 1..366
day range — `run_simulation` panics (modelled `none`): the fixed reference
year 2023 is not a leap year, so `with_ordinal(366)` is `None` and the
`.unwrap()` fails before the loop starts. -/
theorem c9_counterexample : run_simulation day366State = none := by
  have h1 : withOrdinal2023 (if day366State.start_day = 0 then 1
      else day366State.start_day) = none := by decide
  rw [run_simulation, h1]
  rfl

/-- C9 amended: for day ordinals in 1..=365 (the reference year 2023 is not a
leap year), ordered days, non-negative load, capacity and solar output, a
positive step size, and latitudes within ±66° (which keeps the `acos`
argument above −1, away from the 24-hour daylight value whose sunset
construction panics), `run_simulation` returns normally. -/
theorem c9_run_simulation_total (s : SimState)
    (hs1 : 1 ≤ s.start_day) (hs2 : s.start_day ≤ 365)
    (he1 : 1 ≤ s.end_day) (he2 : s.end_day ≤ 365)
    (hord : s.start_day ≤ s.end_day)
    (hload : 0 ≤ s.load) (hcap : 0 ≤ s.battery_capacity)
    (hsolar : 0 ≤ s.solar_nominal_output)
    (hstep : 0 < s.step_size) (hlat : |s.latitude| ≤ 66) :
    ∃ s', run_simulation s = some s' := by
  have h1 : withOrdinal2023 (if s.start_day = 0 then 1 else s.start_day) =
      some (86400 * ((s.start_day : ℤ) - 1)) := by
    rw [if_neg (by omega), withOrdinal2023, if_pos ⟨hs1, hs2⟩]
  have h2 : withOrdinal2023 (if s.end_day = 0 then 1 else s.end_day) =
      some (86400 * ((s.end_day : ℤ) - 1)) := by
    rw [if_neg (by omega), withOrdinal2023, if_pos ⟨he1, he2⟩]
  rw [run_simulation, h1]
  simp only [Option.bind_eq_bind, Option.some_bind]
  rw [h2]
  simp only [Option.bind_eq_bind, Option.some_bind]
  exact runLoop_some hstep hlat

theorem c9_witness : ∃ s', run_simulation trivialState = some s' := by
  apply c9_run_simulation_total trivialState
  · decide
  · decide
  · decide
  · decide
  · decide
  · show (0 : ℝ) ≤ 0
    norm_num
  · show (0 : ℝ) ≤ 0
    norm_num
  · show (0 : ℝ) ≤ 0
    norm_num
  · decide
  · show |(0 : ℝ)| ≤ 66
    norm_num

/-- C10: every successful step advances the clock by exactly `stepSize`
(strictly when it is positive); whatever state the `while clock <
endBoundary` loop returns satisfies `endBoundary ≤ clock`; and a returning
`run_simulation` with positive step size ends with the clock at or past the
end boundary (midnight of the end day in the fixed reference year). The loop
itself is well-founded on `endBoundary − clock`, which is the finiteness of
the step count. -/
theorem c10_termination_clock :
    (∀ s s' : SimState, step s = some s' → s'.now = s.now + s.step_size ∧
      (0 < s.step_size → s.now < s'.now)) ∧
    (∀ (endB : ℤ) (s s' : SimState), 0 < s.step_size → runLoop endB s = some s' →
      endB ≤ s'.now) ∧
    (∀ s s' : SimState, 0 < s.step_size → run_simulation s = some s' →
      ∃ e, withOrdinal2023 (if s.end_day = 0 then 1 else s.end_day) = some e ∧
        e ≤ s'.now) := by
  refine ⟨?_, ?_, ?_⟩
  · intro s s' hst
    have h := (step_fields hst).1
    exact ⟨h, fun hpos => by rw [h]; omega⟩
  · intro endB s s' _ hrun
    exact runLoop_now_ge hrun
  · intro s s' hpos hrun
    cases hw1 : withOrdinal2023 (if s.start_day = 0 then 1 else s.start_day) with
    | none =>
      rw [run_simulation, hw1] at hrun
      cases hrun
    | some a =>
      cases hw2 : withOrdinal2023 (if s.end_day = 0 then 1 else s.end_day) with
      | none =>
        rw [run_simulation, hw1] at hrun
        simp only [Option.bind_eq_bind, Option.some_bind] at hrun
        rw [hw2] at hrun
        cases hrun
      | some e =>
        rw [run_simulation, hw1] at hrun
        simp only [Option.bind_eq_bind, Option.some_bind] at hrun
        rw [hw2] at hrun
        simp only [Option.bind_eq_bind, Option.some_bind] at hrun
        exact ⟨e, rfl, runLoop_now_ge hrun⟩

theorem c10_witness : ∃ e,
    withOrdinal2023 (if trivialState.end_day = 0 then 1 else trivialState.end_day) =
      some e ∧
      e ≤ ({ trivialState with
        now := 0
        current_stored_energy := 0
        charge_history := []
        history_dates := []
        solar_history := []
        daylight_history := [] } : SimState).now :=
  c10_termination_clock.2.2 trivialState _ (by decide) run_trivialState

example : ordinal0OfDay 0 = 0 := by decide
example : ordinal0OfDay 364 = 364 := by decide
example : ordinal0OfDay 365 = 0 := by decide
example : ordinal0OfDay (365 + 59) = 59 := by decide
example : ordinal0OfDay (365 + 365) = 365 := by decide
example : ordinal0OfDay (365 + 366) = 0 := by decide
example : ordinal0OfDay (-1) = 364 := by decide
example : ordinal0OfDay (-19358) = 0 := by decide
example : civilYear 0 = 2023 := by decide
example : civilYear (-19358) = 1970 := by decide
example : daysFromCivil 2023 1 1 = 19358 := by decide

end Solar
